import Mathlib

/-!
Shallow embedding of the assignment-lifecycle and approval-workflow core of
the utility-meter backend (src/app/api/v1/endpoints/assignments.py,
approvals.py, meters.py and src/app/models/*), together with theorems
settling the specification claims about it.

Conventions of the embedding:
* 128-bit row ids and timestamps are modelled as `Nat`; `func.now()` values
  are passed to each operation as an explicit `now` argument.
* SQLAlchemy integer columns (`current_load`, `max_load`) are `Int`.
* The database session is a `State` record of entity lists; `db.add` appends,
  a row update rewrites the first list entry matched by the lookup predicate
  (primary-key lookups in the source use `scalar_one_or_none`).
* An endpoint is a function `State → ... → Except ApiError State`; raising
  `HTTPException` before `db.commit` is modelled by returning `.error e`
  (the transaction is rolled back, so no state is returned).
* Error kinds follow the spec taxonomy for the distinct raise sites:
  404 → `notFound`, 400 "already assigned"/"active assignments" → `conflict`,
  400 "not pending"/"no available agents" → `invalidState`, FastAPI's
  422 for a missing required query parameter → `validation`, and an
  unhandled exception surfaced as HTTP 500 → `internal`.
-/

inductive AssignmentStatus where
  | pending
  | in_progress
  | completed
  | cancelled
  | overdue
deriving DecidableEq, Repr

inductive AgentStatus where
  | available
  | busy
  | offline
  | on_break
deriving DecidableEq, Repr

inductive ApprovalStatus where
  | pending
  | approved
  | rejected
  | under_review
deriving DecidableEq, Repr

inductive ApiError where
  | notFound
  | conflict
  | invalidState
  | validation
  | internal
deriving DecidableEq, Repr

structure Meter where
  id : Nat
  serial_number : String
deriving DecidableEq, Repr

structure Agent where
  id : Nat
  user_id : Nat
  current_load : Int
  max_load : Int
  status : AgentStatus
deriving DecidableEq, Repr

structure MeterAssignment where
  id : Nat
  meter_id : Nat
  agent_id : Nat
  status : AssignmentStatus
  estimated_time : Option Nat
  assigned_at : Nat
  completed_at : Option Nat
  completion_notes : Option String
deriving DecidableEq, Repr

structure MeterApprovalRequest where
  id : Nat
  meter_id : Nat
  agent_id : Nat
  reviewer_id : Option Nat
  meter_data : String
  status : ApprovalStatus
  submission_notes : Option String
  review_notes : Option String
  submitted_at : Nat
  reviewed_at : Option Nat
deriving DecidableEq, Repr

structure State where
  meters : List Meter
  agents : List Agent
  assignments : List MeterAssignment
  requests : List MeterApprovalRequest
  nextId : Nat
deriving DecidableEq, Repr

/-- Primary-key lookup on the meters table (`scalar_one_or_none`). -/
def findMeter (l : List Meter) (mid : Nat) : Option Meter :=
  l.find? (fun m => m.id == mid)

/-- Primary-key lookup on the agents table. -/
def findAgent (l : List Agent) (aid : Nat) : Option Agent :=
  l.find? (fun a => a.id == aid)

/-- Primary-key lookup on the meter_assignments table. -/
def findAssignment (l : List MeterAssignment) (aid : Nat) : Option MeterAssignment :=
  l.find? (fun a => a.id == aid)

/-- Primary-key lookup on the meter_approval_requests table. -/
def findRequest (l : List MeterApprovalRequest) (rid : Nat) : Option MeterApprovalRequest :=
  l.find? (fun r => r.id == rid)

/-- Rewrite the first row matched by `p` (an ORM update of a fetched row). -/
def updateFirst (p : α → Bool) (f : α → α) : List α → List α
  | [] => []
  | x :: xs => if p x then f x :: xs else x :: updateFirst p f xs

/-- Delete the first row matched by `p` (`db.delete` on a fetched row). -/
def eraseFirst (p : α → Bool) : List α → List α
  | [] => []
  | x :: xs => if p x then xs else x :: eraseFirst p xs

/-- status in [PENDING, IN_PROGRESS] -- the filter used by the conflict
checks in create_assignment, bulk_assign and delete_meter. -/
def isActive (a : MeterAssignment) : Bool :=
  a.status == AssignmentStatus.pending || a.status == AssignmentStatus.in_progress

/-- The "meter is already assigned" query: some assignment for `mid` with
status in [PENDING, IN_PROGRESS]. -/
def hasActiveAssignment (l : List MeterAssignment) (mid : Nat) : Bool :=
  l.any (fun a => a.meter_id == mid && isActive a)

/-- Number of active assignments referencing meter `mid`. -/
def activeCount (l : List MeterAssignment) (mid : Nat) : Nat :=
  l.countP (fun a => a.meter_id == mid && isActive a)

/-- The at-most-one-active-assignment-per-meter invariant. -/
def meterInvariant (s : State) : Prop :=
  ∀ mid, activeCount s.assignments mid ≤ 1

/-- Agent.status == "available" AND Agent.current_load < Agent.max_load. -/
def isEligible (a : Agent) : Bool :=
  a.status == AgentStatus.available && decide (a.current_load < a.max_load)

/-- The available-agents query of bulk_assign (snapshot at batch start). -/
def eligibleAgents (l : List Agent) : List Agent :=
  l.filter isEligible

def defaultAgent : Agent :=
  { id := 0, user_id := 0, current_load := 0, max_load := 0, status := AgentStatus.offline }

/-- agents[assignments_created % len(agents)].id -- only ever applied to a
nonempty snapshot list, so the default is never consulted. -/
def roundRobinAgentId (agents : List Agent) (k : Nat) : Nat :=
  (agents.getD (k % agents.length) defaultAgent).id

/-- The guarded decrement: fetch the agent row; if present and
current_load > 0, decrement it by 1. -/
def decLoadIfPos (agents : List Agent) (aid : Nat) : List Agent :=
  match findAgent agents aid with
  | some ag =>
    if 0 < ag.current_load then
      updateFirst (fun a => a.id == aid)
        (fun a => { a with current_load := a.current_load - 1 }) agents
    else agents
  | none => agents

/-- POST /assignments (create_assignment): verify meter, verify agent, check
no active assignment for the meter, insert a pending assignment and increment
the target agent's current_load. -/
def create_assignment (s : State) (meter_id agent_id : Nat) (estimated_time : Option Nat)
    (now : Nat) : Except ApiError State :=
  match findMeter s.meters meter_id with
  | none => .error .notFound
  | some _ =>
    match findAgent s.agents agent_id with
    | none => .error .notFound
    | some _ =>
      if hasActiveAssignment s.assignments meter_id then
        .error .conflict
      else
        let newA : MeterAssignment :=
          { id := s.nextId, meter_id := meter_id, agent_id := agent_id,
            status := AssignmentStatus.pending, estimated_time := estimated_time,
            assigned_at := now, completed_at := none, completion_notes := none }
        .ok { s with
          assignments := s.assignments ++ [newA],
          agents := updateFirst (fun a => a.id == agent_id)
            (fun a => { a with current_load := a.current_load + 1 }) s.agents,
          nextId := s.nextId + 1 }

/-- The per-meter loop body of bulk_assign: skip meters with an active
assignment (the session autoflushes, so assignments created earlier in the
batch are visible to the check), otherwise insert a pending assignment for
the agent chosen by `agentFor` at the running created-count, and advance the
count.  Agent loads are never touched. -/
def bulkStep (agentFor : Nat → Nat) (et : Option Nat) (now : Nat) :
    List Nat → State → Nat → State × Nat
  | [], s, created => (s, created)
  | mid :: rest, s, created =>
    if hasActiveAssignment s.assignments mid then
      bulkStep agentFor et now rest s created
    else
      let newA : MeterAssignment :=
        { id := s.nextId, meter_id := mid, agent_id := agentFor created,
          status := AssignmentStatus.pending, estimated_time := et,
          assigned_at := now, completed_at := none, completion_notes := none }
      bulkStep agentFor et now rest
        { s with assignments := s.assignments ++ [newA], nextId := s.nextId + 1 }
        (created + 1)

/-- POST /assignments/bulk (bulk_assign): verify every meter id, verify the
explicit agent when given, otherwise snapshot the eligible agents (failing
with "No available agents found" when none); then run the per-meter loop and
return the final state with the number of assignments created. -/
def bulk_assign (s : State) (meter_ids : List Nat) (agent_id : Option Nat)
    (et : Option Nat) (now : Nat) : Except ApiError (State × Nat) :=
  if meter_ids.any (fun mid => (findMeter s.meters mid).isNone) then
    .error .notFound
  else
    match agent_id with
    | some aid =>
      match findAgent s.agents aid with
      | none => .error .notFound
      | some _ => .ok (bulkStep (fun _ => aid) et now meter_ids s 0)
    | none =>
      let agents := eligibleAgents s.agents
      if agents.isEmpty then .error .invalidState
      else .ok (bulkStep (roundRobinAgentId agents) et now meter_ids s 0)

/-- The PUT /assignments payload: a field is `some` exactly when it was set
in the request body (pydantic exclude_unset). -/
structure MeterAssignmentUpdate where
  status : Option AssignmentStatus := none
  estimated_time : Option Nat := none
  completion_notes : Option String := none
deriving DecidableEq, Repr

/-- The setattr loop over the fields present in the payload. -/
def applyAssignmentUpdate (a : MeterAssignment) (u : MeterAssignmentUpdate) :
    MeterAssignment :=
  { a with
    status := u.status.getD a.status,
    estimated_time := match u.estimated_time with
      | some t => some t
      | none => a.estimated_time,
    completion_notes := match u.completion_notes with
      | some n => some n
      | none => a.completion_notes }

/-- PUT /assignments/{id} (update_assignment): 404 when the id is unknown;
apply the provided fields; when the payload status is COMPLETED and
completed_at is still unset, stamp completed_at = now and apply the guarded
load decrement for the assignment's agent. -/
def update_assignment (s : State) (aid : Nat) (u : MeterAssignmentUpdate)
    (now : Nat) : Except ApiError State :=
  match findAssignment s.assignments aid with
  | none => .error .notFound
  | some a =>
    let a1 := applyAssignmentUpdate a u
    if u.status = some AssignmentStatus.completed ∧ a1.completed_at = none then
      .ok { s with
        assignments := updateFirst (fun x => x.id == aid)
          (fun _ => { a1 with completed_at := some now }) s.assignments,
        agents := decLoadIfPos s.agents a1.agent_id }
    else
      .ok { s with
        assignments := updateFirst (fun x => x.id == aid) (fun _ => a1) s.assignments }

/-- PUT /assignments/me/{id}/status (update_my_assignment_status): when no
assignment with this id belongs to the calling agent, the handler reaches its
404 raise site -- but its `status` query parameter shadows the imported
fastapi status module, so `status.HTTP_404_NOT_FOUND` is an attribute access
on the enum value and raises AttributeError before the HTTPException is
built; the request fails with an unhandled-exception 500, modelled as
`.error .internal` (nothing has been mutated at that point).  Otherwise: set
the status; when the new status is COMPLETED, stamp completed_at = now,
overwrite completion_notes, and apply the guarded decrement to the calling
agent -- with no completed_at idempotence guard. -/
def update_my_assignment_status (s : State) (aid : Nat) (agentId : Nat)
    (newStatus : AssignmentStatus) (notes : Option String) (now : Nat) :
    Except ApiError State :=
  match s.assignments.find? (fun a => a.id == aid && a.agent_id == agentId) with
  | none => .error .internal
  | some a =>
    if newStatus = AssignmentStatus.completed then
      .ok { s with
        assignments := updateFirst (fun x => x.id == aid && x.agent_id == agentId)
          (fun _ => { a with status := newStatus, completed_at := some now,
                             completion_notes := notes }) s.assignments,
        agents := decLoadIfPos s.agents agentId }
    else
      .ok { s with
        assignments := updateFirst (fun x => x.id == aid && x.agent_id == agentId)
          (fun _ => { a with status := newStatus }) s.assignments }

/-- PUT /approvals/{id}/approve (approve_request): 404 when absent, 400 when
not pending, else set status=APPROVED, reviewer_id, review_notes (an optional
parameter), reviewed_at=now. -/
def approve_request (s : State) (rid : Nat) (notes : Option String)
    (reviewer : Nat) (now : Nat) : Except ApiError State :=
  match findRequest s.requests rid with
  | none => .error .notFound
  | some r =>
    if r.status = ApprovalStatus.pending then
      .ok { s with
        requests := updateFirst (fun q => q.id == rid)
          (fun q => { q with status := ApprovalStatus.approved,
                             reviewer_id := some reviewer, review_notes := notes,
                             reviewed_at := some now }) s.requests }
    else .error .invalidState

/-- PUT /approvals/{id}/reject (reject_request): review_notes is a required
query parameter (`review_notes: str`), so a request without it is rejected by
FastAPI with 422 before the handler runs; the handler itself never checks the
string for emptiness.  Then: 404 when absent, 400 when not pending, else set
status=REJECTED, reviewer_id, review_notes, reviewed_at=now. -/
def reject_request (s : State) (rid : Nat) (notes : Option String)
    (reviewer : Nat) (now : Nat) : Except ApiError State :=
  match notes with
  | none => .error .validation
  | some ns =>
    match findRequest s.requests rid with
    | none => .error .notFound
    | some r =>
      if r.status = ApprovalStatus.pending then
        .ok { s with
          requests := updateFirst (fun q => q.id == rid)
            (fun q => { q with status := ApprovalStatus.rejected,
                               reviewer_id := some reviewer, review_notes := some ns,
                               reviewed_at := some now }) s.requests }
      else .error .invalidState

inductive ReviewOutcome where
  | approve
  | reject
deriving DecidableEq, Repr

/-- A review call: one of the two review endpoints. -/
def review (s : State) (rid : Nat) (o : ReviewOutcome) (notes : Option String)
    (reviewer : Nat) (now : Nat) : Except ApiError State :=
  match o with
  | .approve => approve_request s rid notes reviewer now
  | .reject => reject_request s rid notes reviewer now

/-- DELETE /meters/{id} (delete_meter): 404 when absent, 400 while an active
assignment references the meter, else remove the row. -/
def delete_meter (s : State) (mid : Nat) : Except ApiError State :=
  match findMeter s.meters mid with
  | none => .error .notFound
  | some _ =>
    if hasActiveAssignment s.assignments mid then
      .error .conflict
    else
      .ok { s with meters := eraseFirst (fun m => m.id == mid) s.meters }

/-- The two creation operations, for stating preservation over sequences.
A failed call rolls back and leaves the state unchanged. -/
inductive AssignOp where
  | create (meter_id agent_id : Nat) (et : Option Nat) (now : Nat)
  | bulk (meter_ids : List Nat) (agent_id : Option Nat) (et : Option Nat) (now : Nat)
deriving Repr

def applyAssignOp (s : State) (op : AssignOp) : State :=
  match op with
  | .create mid aid et now =>
    match create_assignment s mid aid et now with
    | .ok s' => s'
    | .error _ => s
  | .bulk mids aid et now =>
    match bulk_assign s mids aid et now with
    | .ok (s', _) => s'
    | .error _ => s

/-! ### Generic lemmas about the row-update and row-delete helpers -/

theorem find?_cons_true {α : Type} (p : α → Bool) (x : α) (xs : List α) (h : p x = true) :
    (x :: xs).find? p = some x := by
  simp [List.find?, h]

theorem find?_cons_false {α : Type} (p : α → Bool) (x : α) (xs : List α) (h : p x = false) :
    (x :: xs).find? p = xs.find? p := by
  simp [List.find?, h]

theorem find?_updateFirst_self {α : Type} {p : α → Bool} {f : α → α} :
    ∀ {l : List α} {a : α}, l.find? p = some a → p (f a) = true →
      (updateFirst p f l).find? p = some (f a) := by
  intro l
  induction l with
  | nil => intro a h _; simp at h
  | cons x xs ih =>
    intro a h hf
    by_cases hx : p x = true
    · rw [List.find?_cons_of_pos _ hx] at h
      injection h with h
      subst h
      simp only [updateFirst, if_pos hx]
      rw [List.find?_cons_of_pos _ hf]
    · rw [List.find?_cons_of_neg _ hx] at h
      simp only [updateFirst, if_neg hx]
      rw [List.find?_cons_of_neg _ hx]
      exact ih h hf

theorem updateFirst_decomp {α : Type} {p : α → Bool} (f : α → α) :
    ∀ {l : List α} {a : α}, l.find? p = some a →
      ∃ l1 l2, l = l1 ++ a :: l2 ∧ (∀ x ∈ l1, p x = false) ∧
        updateFirst p f l = l1 ++ f a :: l2 := by
  intro l
  induction l with
  | nil => intro a h; simp at h
  | cons x xs ih =>
    intro a h
    by_cases hx : p x = true
    · rw [List.find?_cons_of_pos _ hx] at h
      injection h with h
      subst h
      exact ⟨[], xs, rfl, by simp, by simp [updateFirst, hx]⟩
    · rw [List.find?_cons_of_neg _ hx] at h
      obtain ⟨l1, l2, hl, hall, hupd⟩ := ih h
      refine ⟨x :: l1, l2, by simp [hl], ?_, by simp [updateFirst, hx, hupd]⟩
      intro y hy
      rcases List.mem_cons.mp hy with rfl | hy
      · simpa using hx
      · exact hall y hy

theorem findAgent_updateFirst (l : List Agent) (aid : Nat) (f : Agent → Agent)
    (hf : ∀ a, (f a).id = a.id) :
    findAgent (updateFirst (fun a => a.id == aid) f l) aid = (findAgent l aid).map f := by
  induction l with
  | nil => rfl
  | cons x xs ih =>
    by_cases hx : (x.id == aid) = true
    · have hfx : ((f x).id == aid) = true := by rw [hf]; exact hx
      simp only [updateFirst, if_pos hx, findAgent]
      rw [find?_cons_true (fun a => a.id == aid) (f x) xs hfx,
        find?_cons_true (fun a => a.id == aid) x xs hx]
      rfl
    · have hx' : (x.id == aid) = false := by simpa using hx
      simp only [updateFirst, findAgent]
      rw [if_neg hx]
      rw [find?_cons_false (fun a => a.id == aid) x _ hx',
        find?_cons_false (fun a => a.id == aid) x xs hx']
      exact ih

theorem findAgent_decLoadIfPos (l : List Agent) (aid : Nat) :
    findAgent (decLoadIfPos l aid) aid =
      (findAgent l aid).map (fun ag =>
        if 0 < ag.current_load then { ag with current_load := ag.current_load - 1 }
        else ag) := by
  unfold decLoadIfPos
  cases hfind : findAgent l aid with
  | none => simp [hfind]
  | some ag =>
    by_cases hpos : 0 < ag.current_load
    · simp only [hfind, if_pos hpos]
      rw [findAgent_updateFirst l aid
        (fun a => { a with current_load := a.current_load - 1 }) (fun a => rfl), hfind]
      simp [hpos]
    · simp [hfind, if_neg hpos, hpos]

/-! ### Lemmas about active-assignment counting -/

theorem activeCount_append (l1 l2 : List MeterAssignment) (mid : Nat) :
    activeCount (l1 ++ l2) mid = activeCount l1 mid + activeCount l2 mid :=
  List.countP_append _ _ _

theorem activeCount_singleton (a : MeterAssignment) (mid : Nat) :
    activeCount [a] mid = if a.meter_id == mid && isActive a then 1 else 0 := by
  simp [activeCount, List.countP_cons]

theorem activeCount_eq_zero_of_not_active (l : List MeterAssignment) (mid : Nat)
    (h : hasActiveAssignment l mid = false) : activeCount l mid = 0 := by
  rw [activeCount, List.countP_eq_zero]
  intro a ha hpa
  have htrue : hasActiveAssignment l mid = true := by
    rw [hasActiveAssignment, List.any_eq_true]
    exact ⟨a, ha, hpa⟩
  rw [h] at htrue
  exact Bool.false_ne_true htrue

theorem hasActive_append_false_left (l1 l2 : List MeterAssignment) (mid : Nat)
    (h : hasActiveAssignment (l1 ++ l2) mid = false) :
    hasActiveAssignment l1 mid = false := by
  rw [hasActiveAssignment, List.any_append] at h
  exact (Bool.or_eq_false_iff.mp h).1

theorem hasActive_append_singleton (l : List MeterAssignment) (a : MeterAssignment)
    (mid : Nat) :
    hasActiveAssignment (l ++ [a]) mid =
      (hasActiveAssignment l mid || (a.meter_id == mid && isActive a)) := by
  simp [hasActiveAssignment, List.any_append]

theorem findMeter_eraseFirst_nodup (l : List Meter) (mid : Nat)
    (h : (l.map (fun m => m.id)).Nodup) :
    findMeter (eraseFirst (fun m => m.id == mid) l) mid = none := by
  induction l with
  | nil => rfl
  | cons x xs ih =>
    simp only [List.map_cons, List.nodup_cons] at h
    by_cases hx : (x.id == mid) = true
    · simp only [eraseFirst, if_pos hx]
      rw [findMeter, List.find?_eq_none]
      intro m hm hpm
      have hxid : x.id = mid := by simpa using hx
      have hmid : m.id = mid := by simpa using hpm
      exact h.1 (by rw [hxid, ← hmid]; exact List.mem_map_of_mem _ hm)
    · have hx' : (x.id == mid) = false := by simpa using hx
      simp only [eraseFirst]
      rw [if_neg hx, findMeter,
        find?_cons_false (fun m => m.id == mid) x _ hx']
      exact ih h.2

/-! ### C8 -/

/-- C8: deleting a meter fails (with the active-assignment conflict error,
the transaction rolled back and the store untouched) whenever some
MeterAssignment with status pending or in_progress references it; when no
such active assignment exists the meter row is removed and no other table
is modified. -/
theorem delete_meter_requires_no_active (s : State) (mid : Nat) (m : Meter)
    (hm : findMeter s.meters mid = some m)
    (hnodup : (s.meters.map (fun x => x.id)).Nodup) :
    (hasActiveAssignment s.assignments mid = true →
      delete_meter s mid = .error ApiError.conflict) ∧
    (hasActiveAssignment s.assignments mid = false →
      ∃ s', delete_meter s mid = .ok s' ∧
        findMeter s'.meters mid = none ∧
        s'.assignments = s.assignments ∧ s'.agents = s.agents ∧
        s'.requests = s.requests) := by
  constructor
  · intro hact
    simp [delete_meter, hm, hact]
  · intro hact
    refine ⟨{ s with meters := eraseFirst (fun x => x.id == mid) s.meters },
      ?_, ?_, rfl, rfl, rfl⟩
    · simp [delete_meter, hm, hact]
    · exact findMeter_eraseFirst_nodup s.meters mid hnodup

def exC8_s : State :=
  { meters := [{ id := 3, serial_number := "SN3" }],
    agents := [],
    assignments := [
      { id := 0, meter_id := 3, agent_id := 1, status := AssignmentStatus.in_progress,
        estimated_time := none, assigned_at := 0, completed_at := none,
        completion_notes := none }],
    requests := [],
    nextId := 1 }

/-- Witness for C8: a meter with an in_progress assignment cannot be
deleted. -/
theorem delete_meter_requires_no_active_witness :
    delete_meter exC8_s 3 = .error ApiError.conflict :=
  (delete_meter_requires_no_active exC8_s 3 { id := 3, serial_number := "SN3" }
    (by rfl) (by simp [exC8_s])).1 (by rfl)


/-! ### Review characterization and the approval claims -/

def reviewStatus (o : ReviewOutcome) : ApprovalStatus :=
  match o with
  | .approve => ApprovalStatus.approved
  | .reject => ApprovalStatus.rejected

/-- The row mutation both review endpoints perform: exactly the four review
fields change, every other field is copied. -/
def reviewedWith (q : MeterApprovalRequest) (o : ReviewOutcome) (notes : Option String)
    (reviewer now : Nat) : MeterApprovalRequest :=
  { q with
    status := reviewStatus o
    reviewer_id := some reviewer
    review_notes := notes
    reviewed_at := some now }

theorem findRequest_id {l : List MeterApprovalRequest} {rid : Nat}
    {r : MeterApprovalRequest} (h : findRequest l rid = some r) :
    (r.id == rid) = true := by
  have h0 : List.find? (fun q => q.id == rid) l = some r := h
  have h1 := List.find?_some h0
  simpa using h1

theorem review_ok_iff (s : State) (rid : Nat) (o : ReviewOutcome) (notes : Option String)
    (reviewer now : Nat) (s' : State)
    (h : review s rid o notes reviewer now = .ok s') :
    ∃ r, findRequest s.requests rid = some r ∧ r.status = ApprovalStatus.pending ∧
      s'.meters = s.meters ∧ s'.agents = s.agents ∧ s'.assignments = s.assignments ∧
      s'.nextId = s.nextId ∧
      s'.requests = updateFirst (fun q => q.id == rid)
        (fun q => reviewedWith q o notes reviewer now) s.requests := by
  cases o with
  | approve =>
    cases hfind : findRequest s.requests rid with
    | none => simp [review, approve_request, hfind] at h
    | some r =>
      simp only [review, approve_request, hfind] at h
      by_cases hst : r.status = ApprovalStatus.pending
      · rw [if_pos hst] at h
        injection h with h
        subst h
        exact ⟨r, rfl, hst, rfl, rfl, rfl, rfl, rfl⟩
      · rw [if_neg hst] at h
        exact absurd h (by simp)
  | reject =>
    cases notes with
    | none => simp [review, reject_request] at h
    | some ns =>
      cases hfind : findRequest s.requests rid with
      | none => simp [review, reject_request, hfind] at h
      | some r =>
        simp only [review, reject_request, hfind] at h
        by_cases hst : r.status = ApprovalStatus.pending
        · rw [if_pos hst] at h
          injection h with h
          subst h
          exact ⟨r, rfl, hst, rfl, rfl, rfl, rfl, rfl⟩
        · rw [if_neg hst] at h
          exact absurd h (by simp)

/-- C2: a review (approve or reject) of an approval request succeeds only
while the request's status is pending, and after a successful review any
further review attempt on the same request (a reject must carry its required
notes parameter) fails with the invalid-state error; the failed call returns
no state, so the stored status, reviewer_id and review_notes stay exactly as
the first review left them. -/
theorem review_one_shot (s : State) (rid : Nat) (o : ReviewOutcome)
    (notes : Option String) (reviewer now : Nat) (s' : State)
    (h : review s rid o notes reviewer now = .ok s') :
    (∃ r, findRequest s.requests rid = some r ∧ r.status = ApprovalStatus.pending) ∧
    ∀ o2 n2 reviewer2 now2, (o2 = ReviewOutcome.reject → n2.isSome = true) →
      review s' rid o2 n2 reviewer2 now2 = .error ApiError.invalidState := by
  obtain ⟨r, hfind, hpend, _, _, _, _, hreq⟩ :=
    review_ok_iff s rid o notes reviewer now s' h
  have hfr0 := findRequest_id hfind
  have hfr : ((reviewedWith r o notes reviewer now).id == rid) = true := hfr0
  have hfind' : findRequest s'.requests rid =
      some (reviewedWith r o notes reviewer now) := by
    rw [hreq]
    exact find?_updateFirst_self hfind hfr
  have hne : ¬(reviewedWith r o notes reviewer now).status = ApprovalStatus.pending := by
    cases o <;> simp [reviewedWith, reviewStatus]
  refine ⟨⟨r, hfind, hpend⟩, ?_⟩
  intro o2 n2 reviewer2 now2 hn2
  cases o2 with
  | approve =>
    simp only [review, approve_request, hfind']
    rw [if_neg hne]
  | reject =>
    cases n2 with
    | none => simpa using hn2 rfl
    | some ns2 =>
      simp only [review, reject_request, hfind']
      rw [if_neg hne]

def exReq_r : MeterApprovalRequest :=
  { id := 0, meter_id := 0, agent_id := 1, reviewer_id := none, meter_data := "data",
    status := ApprovalStatus.pending, submission_notes := some "please fix",
    review_notes := none, submitted_at := 1, reviewed_at := none }

def exReq_s : State :=
  { meters := [], agents := [], assignments := [], requests := [exReq_r], nextId := 5 }

def exReq_approved : State :=
  { exReq_s with requests := [reviewedWith exReq_r ReviewOutcome.approve (some "ok") 5 10] }

/-- Witness for C2: after approving the pending request, a reject attempt on
the same request fails with the invalid-state error. -/
theorem review_one_shot_witness :
    review exReq_approved 0 ReviewOutcome.reject (some "no") 6 11 =
      .error ApiError.invalidState :=
  (review_one_shot exReq_s 0 ReviewOutcome.approve (some "ok") 5 10 exReq_approved
    (by rfl)).2 ReviewOutcome.reject (some "no") 6 11 (fun _ => rfl)

/-- C10: a successful review (approve or reject) rewrites exactly the
reviewed request's row -- only status, reviewer_id, review_notes and
reviewed_at change, while meter_id, agent_id, meter_data, submission_notes
and submitted_at are copied unchanged -- and every other request row and the
meters, agents and assignments tables are untouched. -/
theorem review_frame (s : State) (rid : Nat) (o : ReviewOutcome) (notes : Option String)
    (reviewer now : Nat) (s' : State)
    (h : review s rid o notes reviewer now = .ok s') :
    s'.meters = s.meters ∧ s'.agents = s.agents ∧ s'.assignments = s.assignments ∧
    s'.nextId = s.nextId ∧
    ∃ r l1 l2, findRequest s.requests rid = some r ∧
      s.requests = l1 ++ r :: l2 ∧
      s'.requests = l1 ++ reviewedWith r o notes reviewer now :: l2 ∧
      (reviewedWith r o notes reviewer now).meter_id = r.meter_id ∧
      (reviewedWith r o notes reviewer now).agent_id = r.agent_id ∧
      (reviewedWith r o notes reviewer now).meter_data = r.meter_data ∧
      (reviewedWith r o notes reviewer now).submission_notes = r.submission_notes ∧
      (reviewedWith r o notes reviewer now).submitted_at = r.submitted_at := by
  obtain ⟨r, hfind, hpend, hm, ha, has, hn, hreq⟩ :=
    review_ok_iff s rid o notes reviewer now s' h
  obtain ⟨l1, l2, hdec, hall, hupd⟩ :=
    updateFirst_decomp (fun q => reviewedWith q o notes reviewer now) hfind
  exact ⟨hm, ha, has, hn, r, l1, l2, hfind, hdec, by rw [hreq, hupd],
    rfl, rfl, rfl, rfl, rfl⟩

def exReq_rejected : State :=
  { exReq_s with requests := [reviewedWith exReq_r ReviewOutcome.reject (some "bad") 6 11] }

/-- Witness for C10: rejecting the pending request rewrites only its review
fields and touches nothing else. -/
theorem review_frame_witness :
    exReq_rejected.meters = exReq_s.meters ∧ exReq_rejected.agents = exReq_s.agents ∧
    exReq_rejected.assignments = exReq_s.assignments ∧
    exReq_rejected.nextId = exReq_s.nextId ∧
    ∃ r l1 l2, findRequest exReq_s.requests 0 = some r ∧
      exReq_s.requests = l1 ++ r :: l2 ∧
      exReq_rejected.requests = l1 ++ reviewedWith r ReviewOutcome.reject (some "bad") 6 11 :: l2 ∧
      (reviewedWith r ReviewOutcome.reject (some "bad") 6 11).meter_id = r.meter_id ∧
      (reviewedWith r ReviewOutcome.reject (some "bad") 6 11).agent_id = r.agent_id ∧
      (reviewedWith r ReviewOutcome.reject (some "bad") 6 11).meter_data = r.meter_data ∧
      (reviewedWith r ReviewOutcome.reject (some "bad") 6 11).submission_notes = r.submission_notes ∧
      (reviewedWith r ReviewOutcome.reject (some "bad") 6 11).submitted_at = r.submitted_at :=
  review_frame exReq_s 0 ReviewOutcome.reject (some "bad") 6 11 exReq_rejected (by rfl)

/-- C7 (amended): rejecting requires the review_notes query parameter to be
present -- a call without it fails with the 422 validation error before the
handler runs (approving has no such required parameter) -- but the handler
never checks the supplied string for emptiness: rejecting a pending request
with review_notes = "" succeeds and stores status=rejected with the empty
notes rather than failing. -/
theorem reject_requires_notes_param (s : State) (rid : Nat) (reviewer now : Nat) :
    reject_request s rid none reviewer now = .error ApiError.validation ∧
    (∀ r, findRequest s.requests rid = some r → r.status = ApprovalStatus.pending →
      ∃ s', reject_request s rid (some "") reviewer now = .ok s' ∧
        ∃ r', findRequest s'.requests rid = some r' ∧
          r'.status = ApprovalStatus.rejected ∧ r'.review_notes = some "") := by
  refine ⟨rfl, ?_⟩
  intro r hfind hpend
  have hfr0 := findRequest_id hfind
  have hfr : ((reviewedWith r ReviewOutcome.reject (some "") reviewer now).id == rid)
      = true := hfr0
  have hok : reject_request s rid (some "") reviewer now =
      .ok { s with
        requests := updateFirst (fun q => q.id == rid)
          (fun q => reviewedWith q ReviewOutcome.reject (some "") reviewer now)
          s.requests } := by
    simp only [reject_request, hfind]
    rw [if_pos hpend]
    rfl
  exact ⟨_, hok, reviewedWith r ReviewOutcome.reject (some "") reviewer now,
    find?_updateFirst_self hfind hfr, rfl, rfl⟩

def exReq_rejected_empty : State :=
  { exReq_s with requests := [reviewedWith exReq_r ReviewOutcome.reject (some "") 9 7] }

/-- Counterexample to C7 as stated: rejecting the pending request with empty
review_notes does not fail with a validation error -- the call succeeds and
the request's status becomes rejected instead of remaining pending. -/
theorem reject_empty_notes_succeeds :
    reject_request exReq_s 0 (some "") 9 7 = .ok exReq_rejected_empty ∧
    (findRequest exReq_rejected_empty.requests 0).map (fun r => r.status) =
      some ApprovalStatus.rejected :=
  ⟨rfl, rfl⟩

/-- Witness for the amended C7: a reject call without the notes parameter
fails with validation, and a reject with empty notes on the pending request
succeeds, storing rejected status and empty notes. -/
theorem reject_requires_notes_param_witness :
    reject_request exReq_s 0 none 9 7 = .error ApiError.validation ∧
    ∃ s', reject_request exReq_s 0 (some "") 9 7 = .ok s' ∧
      ∃ r', findRequest s'.requests 0 = some r' ∧
        r'.status = ApprovalStatus.rejected ∧ r'.review_notes = some "" :=
  ⟨(reject_requires_notes_param exReq_s 0 9 7).1,
   (reject_requires_notes_param exReq_s 0 9 7).2 exReq_r rfl rfl⟩

/-! ### Assignment-update claims -/

theorem findAssignment_id {l : List MeterAssignment} {aid : Nat}
    {a : MeterAssignment} (h : findAssignment l aid = some a) :
    (a.id == aid) = true := by
  have h0 : List.find? (fun x => x.id == aid) l = some a := h
  have h1 := List.find?_some h0
  simpa using h1

theorem findAssignment_set (l : List MeterAssignment) (aid : Nat)
    (a b : MeterAssignment) (h : findAssignment l aid = some a)
    (hb : (b.id == aid) = true) :
    findAssignment (updateFirst (fun x => x.id == aid) (fun _ => b) l) aid = some b :=
  find?_updateFirst_self h hb

/-- C9: update_assignment fails only with the 404 not-found error (exactly
when the id is unknown); for every stored assignment and every status value,
a well-typed update carrying that status succeeds and stores it, with no
validation against the assignment's current status -- in particular a
completed or cancelled assignment can be moved back to pending or
in_progress. -/
theorem update_assignment_no_transition_check (s : State) (aid : Nat)
    (u : MeterAssignmentUpdate) (now : Nat) :
    (update_assignment s aid u now = .error ApiError.notFound ↔
      findAssignment s.assignments aid = none) ∧
    (∀ e, update_assignment s aid u now = .error e → e = ApiError.notFound) ∧
    (∀ a, findAssignment s.assignments aid = some a →
      ∀ st : AssignmentStatus, ∃ s',
        update_assignment s aid { u with status := some st } now = .ok s' ∧
        (findAssignment s'.assignments aid).map (fun x => x.status) = some st) := by
  refine ⟨⟨?_, ?_⟩, ?_, ?_⟩
  · intro h
    cases hfind : findAssignment s.assignments aid with
    | none => rfl
    | some a =>
      simp only [update_assignment, hfind] at h
      split at h <;> exact Except.noConfusion h
  · intro h
    simp [update_assignment, h]
  · intro e h
    cases hfind : findAssignment s.assignments aid with
    | none =>
      simp only [update_assignment, hfind] at h
      injection h with h
      exact h.symm
    | some a =>
      simp only [update_assignment, hfind] at h
      split at h <;> exact Except.noConfusion h
  · intro a hfind st
    have hida := findAssignment_id hfind
    by_cases hc : (({ u with status := some st } : MeterAssignmentUpdate).status
        = some AssignmentStatus.completed ∧
        (applyAssignmentUpdate a { u with status := some st }).completed_at = none)
    · have hok : update_assignment s aid { u with status := some st } now =
          .ok { s with
            assignments := updateFirst (fun x => x.id == aid)
              (fun _ => { applyAssignmentUpdate a { u with status := some st } with
                          completed_at := some now }) s.assignments
            agents := decLoadIfPos s.agents
              (applyAssignmentUpdate a { u with status := some st }).agent_id } := by
        simp only [update_assignment, hfind]
        rw [if_pos hc]
      refine ⟨_, hok, ?_⟩
      have hb : (({ applyAssignmentUpdate a { u with status := some st } with
          completed_at := some now } : MeterAssignment).id == aid) = true := hida
      rw [findAssignment_set s.assignments aid a _ hfind hb]
      simp [applyAssignmentUpdate]
    · have hok : update_assignment s aid { u with status := some st } now =
          .ok { s with
            assignments := updateFirst (fun x => x.id == aid)
              (fun _ => applyAssignmentUpdate a { u with status := some st })
              s.assignments } := by
        simp only [update_assignment, hfind]
        rw [if_neg hc]
      refine ⟨_, hok, ?_⟩
      have hb : ((applyAssignmentUpdate a { u with status := some st }).id == aid)
          = true := hida
      rw [findAssignment_set s.assignments aid a _ hfind hb]
      simp [applyAssignmentUpdate]

def exC9_a : MeterAssignment :=
  { id := 0, meter_id := 4, agent_id := 7, status := AssignmentStatus.completed,
    estimated_time := none, assigned_at := 1, completed_at := some 2,
    completion_notes := none }

def exC9_s : State :=
  { meters := [], agents := [], assignments := [exC9_a], requests := [], nextId := 1 }

/-- Witness for C9: a completed assignment is moved back to pending with no
transition validation. -/
theorem update_assignment_no_transition_check_witness :
    ∃ s', update_assignment exC9_s 0 { status := some AssignmentStatus.pending } 9 = .ok s' ∧
      (findAssignment s'.assignments 0).map (fun x => x.status) =
        some AssignmentStatus.pending :=
  (update_assignment_no_transition_check exC9_s 0 {} 9).2.2 exC9_a rfl
    AssignmentStatus.pending

/-- C4: updating an assignment to completed is idempotent on completed_at
and agent load.  While completed_at is unset, the update succeeds, stamps
completed_at = now and decrements the assigned agent's current_load by
exactly 1 when it is positive, leaving it unchanged at 0 (never negative);
once completed_at is set, a further completed update succeeds but changes
neither the stored completed_at nor any agent's load. -/
theorem update_completed_idempotent (s : State) (aid : Nat) (u : MeterAssignmentUpdate)
    (now : Nat) (a : MeterAssignment) (ag : Agent)
    (hfind : findAssignment s.assignments aid = some a)
    (hst : u.status = some AssignmentStatus.completed)
    (hag : findAgent s.agents a.agent_id = some ag) :
    (a.completed_at = none →
      ∃ s', update_assignment s aid u now = .ok s' ∧
        (findAssignment s'.assignments aid).map (fun x => x.completed_at) =
          some (some now) ∧
        (findAgent s'.agents a.agent_id).map (fun x => x.current_load) =
          some (if 0 < ag.current_load then ag.current_load - 1
                else ag.current_load)) ∧
    (∀ t, a.completed_at = some t →
      ∃ s', update_assignment s aid u now = .ok s' ∧
        (findAssignment s'.assignments aid).map (fun x => x.completed_at) =
          some (some t) ∧
        s'.agents = s.agents) := by
  have hida := findAssignment_id hfind
  constructor
  · intro h0
    have hc : (u.status = some AssignmentStatus.completed ∧
        (applyAssignmentUpdate a u).completed_at = none) := by
      refine ⟨hst, ?_⟩
      have h1 : (applyAssignmentUpdate a u).completed_at = a.completed_at := rfl
      rw [h1, h0]
    have hok : update_assignment s aid u now =
        .ok { s with
          assignments := updateFirst (fun x => x.id == aid)
            (fun _ => { applyAssignmentUpdate a u with
                        completed_at := some now }) s.assignments
          agents := decLoadIfPos s.agents a.agent_id } := by
      simp only [update_assignment, hfind]
      rw [if_pos hc]
      rfl
    refine ⟨_, hok, ?_, ?_⟩
    · have hb : (({ applyAssignmentUpdate a u with
          completed_at := some now } : MeterAssignment).id == aid) = true := hida
      rw [findAssignment_set s.assignments aid a _ hfind hb]
      rfl
    · have hdec := findAgent_decLoadIfPos s.agents a.agent_id
      rw [hag] at hdec
      rw [hdec]
      by_cases hpos : 0 < ag.current_load
      · simp [hpos]
      · simp [hpos]
  · intro t h0
    have hc : ¬(u.status = some AssignmentStatus.completed ∧
        (applyAssignmentUpdate a u).completed_at = none) := by
      intro hcc
      have h1 : (applyAssignmentUpdate a u).completed_at = a.completed_at := rfl
      rw [h1, h0] at hcc
      exact Option.noConfusion hcc.2
    have hok : update_assignment s aid u now =
        .ok { s with
          assignments := updateFirst (fun x => x.id == aid)
            (fun _ => applyAssignmentUpdate a u) s.assignments } := by
      simp only [update_assignment, hfind]
      rw [if_neg hc]
    refine ⟨_, hok, ?_, rfl⟩
    have hb : ((applyAssignmentUpdate a u).id == aid) = true := hida
    rw [findAssignment_set s.assignments aid a _ hfind hb]
    have h1 : (applyAssignmentUpdate a u).completed_at = a.completed_at := rfl
    simp [h1, h0]

def exC4_a0 : MeterAssignment :=
  { id := 0, meter_id := 0, agent_id := 7, status := AssignmentStatus.in_progress,
    estimated_time := none, assigned_at := 1, completed_at := none,
    completion_notes := none }

def exC4_ag : Agent :=
  { id := 7, user_id := 7, current_load := 2, max_load := 10,
    status := AgentStatus.available }

def exC4_u : MeterAssignmentUpdate := { status := some AssignmentStatus.completed }

def exC4_s : State :=
  { meters := [], agents := [exC4_ag], assignments := [exC4_a0], requests := [],
    nextId := 1 }

def exC4_a1 : MeterAssignment :=
  { exC4_a0 with status := AssignmentStatus.completed, completed_at := some 5 }

def exC4_ag1 : Agent := { exC4_ag with current_load := 1 }

def exC4_s1 : State :=
  { meters := [], agents := [exC4_ag1], assignments := [exC4_a1], requests := [],
    nextId := 1 }

/-- Witness for C4: the first completed update on the fresh assignment stamps
completed_at = 5 and decrements the agent's load, and a second completed
update on the resulting state keeps completed_at = 5 and leaves all loads
unchanged. -/
theorem update_completed_idempotent_witness :
    (∃ s', update_assignment exC4_s 0 exC4_u 5 = .ok s' ∧
      (findAssignment s'.assignments 0).map (fun x => x.completed_at) =
        some (some 5) ∧
      (findAgent s'.agents exC4_a0.agent_id).map (fun x => x.current_load) =
        some (if 0 < exC4_ag.current_load then exC4_ag.current_load - 1
              else exC4_ag.current_load)) ∧
    (∃ s', update_assignment exC4_s1 0 exC4_u 9 = .ok s' ∧
      (findAssignment s'.assignments 0).map (fun x => x.completed_at) =
        some (some 5) ∧
      s'.agents = exC4_s1.agents) :=
  ⟨(update_completed_idempotent exC4_s 0 exC4_u 5 exC4_a0 exC4_ag rfl rfl rfl).1 rfl,
   (update_completed_idempotent exC4_s1 0 exC4_u 9 exC4_a1 exC4_ag1 rfl rfl rfl).2 5 rfl⟩

theorem findOwn_set (l : List MeterAssignment) (aid agentId : Nat)
    (a b : MeterAssignment)
    (h : l.find? (fun x => x.id == aid && x.agent_id == agentId) = some a)
    (hb : (b.id == aid && b.agent_id == agentId) = true) :
    (updateFirst (fun x => x.id == aid && x.agent_id == agentId) (fun _ => b) l).find?
      (fun x => x.id == aid && x.agent_id == agentId) = some b :=
  find?_updateFirst_self h hb

/-- C5 (amended): update_my_assignment_status is scoped to the calling agent,
but when no assignment with the given id belongs to that agent it does not
fail with NotFound: the handler's `status` parameter shadows the fastapi
status module, so the 404 raise site crashes with AttributeError and the call
fails with an unhandled-exception 500 (internal error), mutating nothing.  On
status=completed for an owned assignment it always stamps completed_at = now,
overwrites completion_notes and decrements the calling agent's current_load
by 1 when positive (never below zero).  Unlike update_assignment it has no
completed_at idempotence guard, so re-issuing completed on an
already-completed assignment re-stamps completed_at and decrements the load
again. -/
theorem update_my_status_scoped (s : State) (aid agentId : Nat)
    (notes : Option String) (now : Nat) :
    (s.assignments.find? (fun x => x.id == aid && x.agent_id == agentId) = none →
      ∀ st, update_my_assignment_status s aid agentId st notes now =
        .error ApiError.internal) ∧
    (∀ a ag,
      s.assignments.find? (fun x => x.id == aid && x.agent_id == agentId) = some a →
      findAgent s.agents agentId = some ag →
      ∃ s', update_my_assignment_status s aid agentId AssignmentStatus.completed
          notes now = .ok s' ∧
        (s'.assignments.find? (fun x => x.id == aid && x.agent_id == agentId)).map
          (fun x => (x.status, x.completed_at, x.completion_notes)) =
          some (AssignmentStatus.completed, some now, notes) ∧
        (findAgent s'.agents agentId).map (fun x => x.current_load) =
          some (if 0 < ag.current_load then ag.current_load - 1
                else ag.current_load)) := by
  constructor
  · intro hnone st
    simp [update_my_assignment_status, hnone]
  · intro a ag hfind hag
    have hp := List.find?_some hfind
    have hok : update_my_assignment_status s aid agentId AssignmentStatus.completed
        notes now =
        .ok { s with
          assignments := updateFirst (fun x => x.id == aid && x.agent_id == agentId)
            (fun _ => { a with
              status := AssignmentStatus.completed
              completed_at := some now
              completion_notes := notes }) s.assignments
          agents := decLoadIfPos s.agents agentId } := by
      simp only [update_my_assignment_status, hfind]
      rw [if_pos trivial]
    refine ⟨_, hok, ?_, ?_⟩
    · have hb : (({ a with
          status := AssignmentStatus.completed
          completed_at := some now
          completion_notes := notes } : MeterAssignment).id == aid &&
          ({ a with
            status := AssignmentStatus.completed
            completed_at := some now
            completion_notes := notes } : MeterAssignment).agent_id == agentId)
          = true := hp
      rw [findOwn_set s.assignments aid agentId a _ hfind hb]
      rfl
    · have hdec := findAgent_decLoadIfPos s.agents agentId
      rw [hag] at hdec
      rw [hdec]
      by_cases hpos : 0 < ag.current_load
      · simp [hpos]
      · simp [hpos]

def exC5_a : MeterAssignment :=
  { id := 0, meter_id := 0, agent_id := 3, status := AssignmentStatus.completed,
    estimated_time := none, assigned_at := 1, completed_at := some 5,
    completion_notes := some "done" }

def exC5_ag : Agent :=
  { id := 3, user_id := 3, current_load := 1, max_load := 10,
    status := AgentStatus.available }

def exC5_s : State :=
  { meters := [], agents := [exC5_ag], assignments := [exC5_a], requests := [],
    nextId := 1 }

def exC5_s1 : State :=
  { meters := [],
    agents := [{ exC5_ag with current_load := 0 }],
    assignments := [{ exC5_a with
      completed_at := some 9
      completion_notes := some "again" }],
    requests := [], nextId := 1 }

/-- Counterexample to C5 as stated, at concrete inputs on both conjuncts:
a caller (agent 99) who does not own assignment 0 gets the internal
(AttributeError / HTTP 500) failure, not NotFound; and re-issuing completed
through the agent-scoped endpoint on an already-completed assignment
(completed_at = 5, agent load 1) re-stamps completed_at to 9 and decrements
the load to 0, instead of leaving both unchanged. -/
theorem update_my_status_not_idempotent :
    update_my_assignment_status exC5_s 0 99 AssignmentStatus.completed none 9 =
      .error ApiError.internal ∧
    update_my_assignment_status exC5_s 0 3 AssignmentStatus.completed (some "again") 9 =
      .ok exC5_s1 ∧
    (findAssignment exC5_s.assignments 0).map (fun x => x.completed_at) =
      some (some 5) ∧
    (findAssignment exC5_s1.assignments 0).map (fun x => x.completed_at) =
      some (some 9) ∧
    (findAgent exC5_s.agents 3).map (fun x => x.current_load) = some 1 ∧
    (findAgent exC5_s1.agents 3).map (fun x => x.current_load) = some 0 := by
  exact ⟨rfl, rfl, rfl, rfl, rfl, rfl⟩

/-- Witness for the amended C5: a non-owning caller (agent 99) gets the
internal-error failure, and completing an already-completed owned assignment
succeeds, stores completed_at = 9 with the new notes, and decrements the
positive load. -/
theorem update_my_status_scoped_witness :
    update_my_assignment_status exC5_s 0 99 AssignmentStatus.in_progress none 9 =
      .error ApiError.internal ∧
    ∃ s', update_my_assignment_status exC5_s 0 3 AssignmentStatus.completed
        (some "again") 9 = .ok s' ∧
      (s'.assignments.find? (fun x => x.id == 0 && x.agent_id == 3)).map
        (fun x => (x.status, x.completed_at, x.completion_notes)) =
        some (AssignmentStatus.completed, some 9, some "again") ∧
      (findAgent s'.agents 3).map (fun x => x.current_load) =
        some (if 0 < exC5_ag.current_load then exC5_ag.current_load - 1
              else exC5_ag.current_load) :=
  ⟨(update_my_status_scoped exC5_s 0 99 none 9).1 rfl AssignmentStatus.in_progress,
   (update_my_status_scoped exC5_s 0 3 (some "again") 9).2 exC5_a exC5_ag rfl rfl⟩

/-! ### Shape lemmas for the creation paths -/

theorem bulkStep_cons_true (agentFor : Nat → Nat) (et : Option Nat) (now : Nat)
    (mid : Nat) (rest : List Nat) (s : State) (c : Nat)
    (h : hasActiveAssignment s.assignments mid = true) :
    bulkStep agentFor et now (mid :: rest) s c = bulkStep agentFor et now rest s c := by
  simp [bulkStep, h]

theorem bulkStep_cons_false (agentFor : Nat → Nat) (et : Option Nat) (now : Nat)
    (mid : Nat) (rest : List Nat) (s : State) (c : Nat)
    (h : hasActiveAssignment s.assignments mid = false) :
    bulkStep agentFor et now (mid :: rest) s c =
      bulkStep agentFor et now rest
        { s with
          assignments := s.assignments ++
            [{ id := s.nextId, meter_id := mid, agent_id := agentFor c,
               status := AssignmentStatus.pending, estimated_time := et,
               assigned_at := now, completed_at := none, completion_notes := none }]
          nextId := s.nextId + 1 } (c + 1) := by
  simp [bulkStep, h]

theorem bulkStep_agents (agentFor : Nat → Nat) (et : Option Nat) (now : Nat) :
    ∀ (mids : List Nat) (s : State) (c : Nat),
      (bulkStep agentFor et now mids s c).1.agents = s.agents := by
  intro mids
  induction mids with
  | nil => intro s c; rfl
  | cons mid rest ih =>
    intro s c
    by_cases hact : hasActiveAssignment s.assignments mid = true
    · rw [bulkStep_cons_true agentFor et now mid rest s c hact]
      exact ih s c
    · have hact' : hasActiveAssignment s.assignments mid = false := by simpa using hact
      rw [bulkStep_cons_false agentFor et now mid rest s c hact']
      exact ih _ _

theorem create_assignment_ok_shape (s : State) (mid aid : Nat) (et : Option Nat)
    (now : Nat) (s' : State) (h : create_assignment s mid aid et now = .ok s') :
    ∃ m ag, findMeter s.meters mid = some m ∧ findAgent s.agents aid = some ag ∧
      hasActiveAssignment s.assignments mid = false ∧
      s' = { s with
        assignments := s.assignments ++
          [{ id := s.nextId, meter_id := mid, agent_id := aid,
             status := AssignmentStatus.pending, estimated_time := et,
             assigned_at := now, completed_at := none, completion_notes := none }]
        agents := updateFirst (fun a => a.id == aid)
          (fun a => { a with current_load := a.current_load + 1 }) s.agents
        nextId := s.nextId + 1 } := by
  cases hm : findMeter s.meters mid with
  | none => simp [create_assignment, hm] at h
  | some m =>
    cases hag : findAgent s.agents aid with
    | none => simp [create_assignment, hm, hag] at h
    | some ag =>
      by_cases hact : hasActiveAssignment s.assignments mid = true
      · simp [create_assignment, hm, hag, hact] at h
      · have hact' : hasActiveAssignment s.assignments mid = false := by simpa using hact
        simp only [create_assignment, hm, hag, hact'] at h
        rw [if_neg (by simp)] at h
        injection h with h
        exact ⟨m, ag, rfl, rfl, hact', h.symm⟩

theorem bulk_assign_ok_shape (s : State) (mids : List Nat) (aidOpt : Option Nat)
    (et : Option Nat) (now : Nat) (s' : State) (c : Nat)
    (h : bulk_assign s mids aidOpt et now = .ok (s', c)) :
    ∃ agentFor : Nat → Nat, bulkStep agentFor et now mids s 0 = (s', c) := by
  by_cases hmiss : (mids.any (fun mid => (findMeter s.meters mid).isNone)) = true
  · unfold bulk_assign at h
    rw [if_pos hmiss] at h
    exact absurd h (by simp)
  · have hmiss' : (mids.any (fun mid => (findMeter s.meters mid).isNone)) = false := by
      simpa using hmiss
    cases aidOpt with
    | some aid =>
      cases hag : findAgent s.agents aid with
      | none => simp [bulk_assign, hmiss', hag] at h
      | some ag =>
        simp [bulk_assign, hmiss', hag] at h
        exact ⟨fun _ => aid, h⟩
    | none =>
      by_cases hemp : (eligibleAgents s.agents).isEmpty = true
      · simp [bulk_assign, hmiss', hemp] at h
      · have hemp' : (eligibleAgents s.agents).isEmpty = false := by simpa using hemp
        simp [bulk_assign, hmiss', hemp'] at h
        exact ⟨roundRobinAgentId (eligibleAgents s.agents), h⟩

theorem bulk_assign_agents (s : State) (mids : List Nat) (aidOpt : Option Nat)
    (et : Option Nat) (now : Nat) (s' : State) (c : Nat)
    (h : bulk_assign s mids aidOpt et now = .ok (s', c)) : s'.agents = s.agents := by
  obtain ⟨agentFor, hstep⟩ := bulk_assign_ok_shape s mids aidOpt et now s' c h
  have hag := bulkStep_agents agentFor et now mids s 0
  rw [hstep] at hag
  exact hag

/-- C3 (amended): each CreateAssignment call increments the target agent's
current_load by exactly 1, but BulkAssign -- on both the explicit-agent path
and the auto-assign round-robin path -- creates its assignments without
modifying any agent's current_load (the bulk handler never touches the
agents table). -/
theorem load_increment_by_path (s : State) :
    (∀ mid aid et now s', create_assignment s mid aid et now = .ok s' →
      ∃ ag, findAgent s.agents aid = some ag ∧
        (findAgent s'.agents aid).map (fun x => x.current_load) =
          some (ag.current_load + 1)) ∧
    (∀ mids aidOpt et now s' c, bulk_assign s mids aidOpt et now = .ok (s', c) →
      s'.agents = s.agents) := by
  constructor
  · intro mid aid et now s' h
    obtain ⟨m, ag, hm, hag, hact, hs'⟩ := create_assignment_ok_shape s mid aid et now s' h
    refine ⟨ag, hag, ?_⟩
    have hagents : s'.agents = updateFirst (fun a => a.id == aid)
        (fun a => { a with current_load := a.current_load + 1 }) s.agents := by
      rw [hs']
    rw [hagents, findAgent_updateFirst s.agents aid
      (fun a => { a with current_load := a.current_load + 1 }) (fun a => rfl), hag]
    rfl
  · intro mids aidOpt et now s' c h
    exact bulk_assign_agents s mids aidOpt et now s' c h

def exC3_ag : Agent :=
  { id := 0, user_id := 0, current_load := 3, max_load := 10,
    status := AgentStatus.available }

def exC3_s : State :=
  { meters := [{ id := 7, serial_number := "B" }], agents := [exC3_ag],
    assignments := [], requests := [], nextId := 0 }

def exC3_new : MeterAssignment :=
  { id := 0, meter_id := 7, agent_id := 0, status := AssignmentStatus.pending,
    estimated_time := none, assigned_at := 2, completed_at := none,
    completion_notes := none }

def exC3_s1 : State :=
  { exC3_s with assignments := [exC3_new], nextId := 1 }

/-- Counterexample to C3 as stated: BulkAssign with an explicit agent creates
an assignment against agent 0 (created_count = 1) yet the agent's
current_load stays 3 -- it does not increase by 1 for this creation path. -/
theorem bulk_assign_does_not_increment_load :
    bulk_assign exC3_s [7] (some 0) none 2 = .ok (exC3_s1, 1) ∧
    exC3_s1.assignments.any (fun a => a.agent_id == 0) = true ∧
    (findAgent exC3_s.agents 0).map (fun x => x.current_load) = some 3 ∧
    (findAgent exC3_s1.agents 0).map (fun x => x.current_load) = some 3 :=
  ⟨rfl, rfl, rfl, rfl⟩

def exC3_create_s1 : State :=
  { meters := [{ id := 7, serial_number := "B" }],
    agents := [{ exC3_ag with current_load := 4 }],
    assignments := [exC3_new], requests := [], nextId := 1 }

/-- Witness for the amended C3: CreateAssignment takes agent 0's load from 3
to 4, while the same BulkAssign creation leaves the loads untouched. -/
theorem load_increment_by_path_witness :
    (∃ ag, findAgent exC3_s.agents 0 = some ag ∧
      (findAgent exC3_create_s1.agents 0).map (fun x => x.current_load) =
        some (ag.current_load + 1)) ∧
    exC3_s1.agents = exC3_s.agents :=
  ⟨(load_increment_by_path exC3_s).1 7 0 none 2 exC3_create_s1 (by rfl),
   (load_increment_by_path exC3_s).2 [7] (some 0) none 2 exC3_s1 1 (by rfl)⟩

/-! ### The at-most-one-active-assignment invariant (C1) -/

theorem invariant_push (l : List MeterAssignment) (a : MeterAssignment)
    (hact : hasActiveAssignment l a.meter_id = false)
    (hinv : ∀ m0, activeCount l m0 ≤ 1) :
    ∀ m0, activeCount (l ++ [a]) m0 ≤ 1 := by
  intro m0
  rw [activeCount_append, activeCount_singleton]
  by_cases hm0 : (a.meter_id == m0) = true
  · have hmeq : a.meter_id = m0 := by simpa using hm0
    have h0 : activeCount l m0 = 0 := by
      rw [← hmeq]
      exact activeCount_eq_zero_of_not_active l a.meter_id hact
    rw [h0]
    split <;> omega
  · have hm0' : (a.meter_id == m0) = false := by simpa using hm0
    have hfalse : (a.meter_id == m0 && isActive a) = false := by simp [hm0']
    rw [hfalse]
    simpa using hinv m0

theorem bulkStep_preserves_invariant (agentFor : Nat → Nat) (et : Option Nat)
    (now : Nat) :
    ∀ (mids : List Nat) (s : State) (c : Nat),
      (∀ m0, activeCount s.assignments m0 ≤ 1) →
      ∀ m0, activeCount (bulkStep agentFor et now mids s c).1.assignments m0 ≤ 1 := by
  intro mids
  induction mids with
  | nil => intro s c hinv m0; exact hinv m0
  | cons mid rest ih =>
    intro s c hinv m0
    by_cases hact : hasActiveAssignment s.assignments mid = true
    · rw [bulkStep_cons_true agentFor et now mid rest s c hact]
      exact ih s c hinv m0
    · have hact' : hasActiveAssignment s.assignments mid = false := by simpa using hact
      rw [bulkStep_cons_false agentFor et now mid rest s c hact']
      exact ih _ _ (invariant_push s.assignments _ hact' hinv) m0

theorem create_preserves_invariant (s : State) (mid aid : Nat) (et : Option Nat)
    (now : Nat) (s' : State) (h : create_assignment s mid aid et now = .ok s')
    (hinv : meterInvariant s) : meterInvariant s' := by
  obtain ⟨m, ag, hm, hag, hact, hs'⟩ := create_assignment_ok_shape s mid aid et now s' h
  intro m0
  have hassign : s'.assignments = s.assignments ++
      [{ id := s.nextId, meter_id := mid, agent_id := aid,
         status := AssignmentStatus.pending, estimated_time := et,
         assigned_at := now, completed_at := none, completion_notes := none }] := by
    rw [hs']
  rw [hassign]
  exact invariant_push s.assignments _ hact hinv m0

theorem bulk_preserves_invariant (s : State) (mids : List Nat) (aidOpt : Option Nat)
    (et : Option Nat) (now : Nat) (s' : State) (c : Nat)
    (h : bulk_assign s mids aidOpt et now = .ok (s', c))
    (hinv : meterInvariant s) : meterInvariant s' := by
  obtain ⟨agentFor, hstep⟩ := bulk_assign_ok_shape s mids aidOpt et now s' c h
  have hpres := bulkStep_preserves_invariant agentFor et now mids s 0 hinv
  rw [hstep] at hpres
  exact hpres

theorem applyAssignOp_preserves (s : State) (op : AssignOp)
    (hinv : meterInvariant s) : meterInvariant (applyAssignOp s op) := by
  cases op with
  | create mid aid et now =>
    cases hc : create_assignment s mid aid et now with
    | ok s' =>
      simp only [applyAssignOp, hc]
      exact create_preserves_invariant s mid aid et now s' hc hinv
    | error e =>
      simp only [applyAssignOp, hc]
      exact hinv
  | bulk mids aidOpt et now =>
    cases hc : bulk_assign s mids aidOpt et now with
    | ok pr =>
      obtain ⟨s', c⟩ := pr
      simp only [applyAssignOp, hc]
      exact bulk_preserves_invariant s mids aidOpt et now s' c hc hinv
    | error e =>
      simp only [applyAssignOp, hc]
      exact hinv

/-- C1 (amended): the at-most-one-active-assignment-per-meter invariant is
preserved by every sequence of CreateAssignment and BulkAssign operations
(failed calls roll back and change nothing); it is NOT preserved by
UpdateAssignment or UpdateOwnAssignmentStatus, which apply any requested
status with no transition validation and can revive a terminal assignment
into an active status alongside an existing active one (see the
counterexample). -/
theorem creation_ops_preserve_invariant (ops : List AssignOp) (s : State)
    (hinv : meterInvariant s) : meterInvariant (ops.foldl applyAssignOp s) := by
  induction ops generalizing s with
  | nil => exact hinv
  | cons op rest ih =>
    exact ih (applyAssignOp s op) (applyAssignOp_preserves s op hinv)

def exC1_a1 : MeterAssignment :=
  { id := 0, meter_id := 0, agent_id := 1, status := AssignmentStatus.completed,
    estimated_time := none, assigned_at := 1, completed_at := some 2,
    completion_notes := none }

def exC1_a2 : MeterAssignment :=
  { id := 1, meter_id := 0, agent_id := 1, status := AssignmentStatus.pending,
    estimated_time := none, assigned_at := 3, completed_at := none,
    completion_notes := none }

def exC1_s0 : State :=
  { meters := [{ id := 0, serial_number := "A" }],
    agents := [{ id := 1, user_id := 1, current_load := 1, max_load := 10,
                 status := AgentStatus.available }],
    assignments := [exC1_a1, exC1_a2], requests := [], nextId := 2 }

def exC1_s1 : State :=
  { exC1_s0 with
    assignments := [{ exC1_a1 with status := AssignmentStatus.pending }, exC1_a2] }

/-- Counterexample to C1 as stated: starting from a state satisfying the
invariant (meter 0 has one completed and one pending assignment), a single
UpdateAssignment call reviving the completed assignment to pending yields two
active assignments for meter 0 -- the invariant is not preserved by
UpdateAssignment. -/
theorem one_active_invariant_violated_by_update :
    meterInvariant exC1_s0 ∧
    update_assignment exC1_s0 0 { status := some AssignmentStatus.pending } 9 =
      .ok exC1_s1 ∧
    ¬ meterInvariant exC1_s1 := by
  refine ⟨?_, by rfl, ?_⟩
  · intro mid
    by_cases hm : mid = 0
    · subst hm
      decide
    · have h0 : activeCount exC1_s0.assignments mid = 0 := by
        rw [activeCount, List.countP_eq_zero]
        intro a ha
        have ha' : a = exC1_a1 ∨ a = exC1_a2 := by simpa [exC1_s0] using ha
        rcases ha' with rfl | rfl
        · simp [exC1_a1, isActive]
        · simp [exC1_a2, isActive]
          omega
      rw [h0]
      omega
  · intro hinv
    have h0 := hinv 0
    revert h0
    decide

def exC1w_s : State :=
  { meters := [{ id := 0, serial_number := "A" }, { id := 1, serial_number := "B" }],
    agents := [{ id := 5, user_id := 5, current_load := 0, max_load := 10,
                 status := AgentStatus.available }],
    assignments := [], requests := [], nextId := 0 }

/-- Witness for the amended C1: a concrete create-then-bulk sequence starting
from an empty assignment table keeps the invariant. -/
theorem creation_ops_preserve_invariant_witness :
    meterInvariant (List.foldl applyAssignOp exC1w_s
      [AssignOp.create 0 5 none 1, AssignOp.bulk [1] (some 5) none 2]) :=
  creation_ops_preserve_invariant
    [AssignOp.create 0 5 none 1, AssignOp.bulk [1] (some 5) none 2] exC1w_s
    (fun mid => by simp [meterInvariant, activeCount, exC1w_s])

/-! ### Round-robin characterization of bulk_assign (C6) -/

/-- The assignment row bulk_assign inserts for meter `mid` when the running
created-count is `c`. -/
def newAssignment (s : State) (mid : Nat) (agentFor : Nat → Nat) (c : Nat)
    (et : Option Nat) (now : Nat) : MeterAssignment :=
  { id := s.nextId, meter_id := mid, agent_id := agentFor c,
    status := AssignmentStatus.pending, estimated_time := et,
    assigned_at := now, completed_at := none, completion_notes := none }

/-- db.add of one new assignment row. -/
def pushAssignment (s : State) (a : MeterAssignment) : State :=
  { s with assignments := s.assignments ++ [a], nextId := s.nextId + 1 }

theorem bulkStep_cons_skip (agentFor : Nat → Nat) (et : Option Nat) (now : Nat)
    (mid : Nat) (rest : List Nat) (s : State) (c : Nat)
    (h : hasActiveAssignment s.assignments mid = true) :
    bulkStep agentFor et now (mid :: rest) s c = bulkStep agentFor et now rest s c :=
  bulkStep_cons_true agentFor et now mid rest s c h

theorem bulkStep_cons_push (agentFor : Nat → Nat) (et : Option Nat) (now : Nat)
    (mid : Nat) (rest : List Nat) (s : State) (c : Nat)
    (h : hasActiveAssignment s.assignments mid = false) :
    bulkStep agentFor et now (mid :: rest) s c =
      bulkStep agentFor et now rest
        (pushAssignment s (newAssignment s mid agentFor c et now)) (c + 1) := by
  rw [bulkStep_cons_false agentFor et now mid rest s c h]
  rfl

theorem bulkStep_spec (agentFor : Nat → Nat) (et : Option Nat) (now : Nat) :
    ∀ (mids : List Nat) (s : State) (c : Nat),
      ∃ created : List MeterAssignment,
        (bulkStep agentFor et now mids s c).1.assignments = s.assignments ++ created ∧
        (bulkStep agentFor et now mids s c).2 = c + created.length ∧
        (∀ k : Nat, ∀ hk : k < created.length,
          (created.get ⟨k, hk⟩).status = AssignmentStatus.pending ∧
          (created.get ⟨k, hk⟩).agent_id = agentFor (c + k) ∧
          (created.get ⟨k, hk⟩).assigned_at = now ∧
          (created.get ⟨k, hk⟩).meter_id ∈ mids) ∧
        (∀ a ∈ created, hasActiveAssignment s.assignments a.meter_id = false) ∧
        (mids.Nodup → ∀ mid ∈ mids, hasActiveAssignment s.assignments mid = false →
          ∃ a ∈ created, a.meter_id = mid) := by
  intro mids
  induction mids with
  | nil =>
    intro s c
    refine ⟨[], by simp [bulkStep], by simp [bulkStep], ?_, by simp, by simp⟩
    intro k hk
    exact absurd hk (Nat.not_lt_zero k)
  | cons mid rest ih =>
    intro s c
    by_cases hact : hasActiveAssignment s.assignments mid = true
    · obtain ⟨created, h1, h2, h3, h4, h5⟩ := ih s c
      rw [bulkStep_cons_skip agentFor et now mid rest s c hact]
      refine ⟨created, h1, h2, ?_, h4, ?_⟩
      · intro k hk
        obtain ⟨hs, ha, hn, hm⟩ := h3 k hk
        exact ⟨hs, ha, hn, List.mem_cons_of_mem mid hm⟩
      · intro hnodup mid' hm' hactm'
        rcases List.mem_cons.mp hm' with rfl | hm'
        · rw [hact] at hactm'
          exact Bool.noConfusion hactm'
        · exact h5 (List.nodup_cons.mp hnodup).2 mid' hm' hactm'
    · have hact' : hasActiveAssignment s.assignments mid = false := by simpa using hact
      obtain ⟨created, h1, h2, h3, h4, h5⟩ :=
        ih (pushAssignment s (newAssignment s mid agentFor c et now)) (c + 1)
      rw [bulkStep_cons_push agentFor et now mid rest s c hact']
      refine ⟨newAssignment s mid agentFor c et now :: created, ?_, ?_, ?_, ?_, ?_⟩
      · rw [h1]
        show (s.assignments ++ [newAssignment s mid agentFor c et now]) ++ created = _
        simp
      · rw [h2]
        simp [List.length_cons]
        omega
      · intro k hk
        cases k with
        | zero =>
          refine ⟨rfl, by simp [newAssignment], rfl, List.mem_cons_self mid rest⟩
        | succ k0 =>
          have hk0 : k0 < created.length := by
            simpa [List.length_cons] using hk
          obtain ⟨hs, ha, hn, hm⟩ := h3 k0 hk0
          refine ⟨hs, ?_, hn, List.mem_cons_of_mem mid hm⟩
          rw [List.get_cons_succ]
          rw [ha]
          congr 1
          omega
      · intro a hmem
        rcases List.mem_cons.mp hmem with rfl | hmem
        · exact hact'
        · have hp := h4 a hmem
          have hp' : hasActiveAssignment
              (s.assignments ++ [newAssignment s mid agentFor c et now])
              a.meter_id = false := hp
          exact hasActive_append_false_left _ _ _ hp'
      · intro hnodup mid' hm' hactm'
        have hparts := List.nodup_cons.mp hnodup
        rcases List.mem_cons.mp hm' with rfl | hm'
        · exact ⟨newAssignment s mid' agentFor c et now, List.mem_cons_self _ _, rfl⟩
        · have hne : mid ≠ mid' := by
            intro heq
            rw [heq] at hparts
            exact hparts.1 hm'
          have hact1 : hasActiveAssignment
              (pushAssignment s (newAssignment s mid agentFor c et now)).assignments
              mid' = false := by
            show hasActiveAssignment
              (s.assignments ++ [newAssignment s mid agentFor c et now]) mid' = false
            rw [hasActive_append_singleton]
            have hmm : ((newAssignment s mid agentFor c et now).meter_id == mid') = false := by
              simp [newAssignment]
              exact hne
            rw [hactm', hmm]
            simp
          obtain ⟨a, hamem, hameter⟩ := h5 hparts.2 mid' hm' hact1
          exact ⟨a, List.mem_cons_of_mem _ hamem, hameter⟩

def exC6_s : State :=
  { meters := [{ id := 10, serial_number := "A" }, { id := 11, serial_number := "B" },
               { id := 12, serial_number := "C" }],
    agents := [{ id := 1, user_id := 1, current_load := 0, max_load := 10,
                 status := AgentStatus.available },
               { id := 2, user_id := 2, current_load := 0, max_load := 10,
                 status := AgentStatus.available }],
    assignments := [], requests := [], nextId := 100 }

def exC6_s1 : State :=
  { exC6_s with
    assignments := [
      { id := 100, meter_id := 10, agent_id := 1, status := AssignmentStatus.pending,
        estimated_time := none, assigned_at := 7, completed_at := none,
        completion_notes := none },
      { id := 101, meter_id := 11, agent_id := 2, status := AssignmentStatus.pending,
        estimated_time := none, assigned_at := 7, completed_at := none,
        completion_notes := none },
      { id := 102, meter_id := 12, agent_id := 1, status := AssignmentStatus.pending,
        estimated_time := none, assigned_at := 7, completed_at := none,
        completion_notes := none }]
    nextId := 103 }

/-- C6: auto-assign BulkAssign (no agent_id), when every requested meter
exists and the eligible-agent snapshot (status available and
current_load < max_load, taken once at batch start) is nonempty, succeeds;
it skips each meter that already has an active assignment (such meters get
no new row), creates a pending assignment for every other requested meter
(stated for duplicate-free requests), picks the agent of the k-th created
assignment as eligible_agents[k mod n], and returns the count of assignments
actually created.  In particular, with meters [A, B, C] and eligible agents
[X, Y], A goes to X, B to Y, C to X and the count is 3. -/
theorem bulk_auto_round_robin :
    (∀ (s : State) (mids : List Nat) (et : Option Nat) (now : Nat),
      (∀ mid ∈ mids, (findMeter s.meters mid).isSome = true) →
      eligibleAgents s.agents ≠ [] →
      ∃ s' c created, bulk_assign s mids none et now = .ok (s', c) ∧
        s'.assignments = s.assignments ++ created ∧
        c = created.length ∧
        (∀ k : Nat, ∀ hk : k < created.length,
          (created.get ⟨k, hk⟩).status = AssignmentStatus.pending ∧
          (created.get ⟨k, hk⟩).agent_id =
            roundRobinAgentId (eligibleAgents s.agents) k) ∧
        (∀ mid, hasActiveAssignment s.assignments mid = true →
          ∀ a ∈ created, a.meter_id ≠ mid) ∧
        (mids.Nodup → ∀ mid ∈ mids, hasActiveAssignment s.assignments mid = false →
          ∃ a ∈ created, a.meter_id = mid)) ∧
    (bulk_assign exC6_s [10, 11, 12] none none 7 = .ok (exC6_s1, 3) ∧
      exC6_s1.assignments.map (fun a => (a.meter_id, a.agent_id)) =
        [(10, 1), (11, 2), (12, 1)]) := by
  refine ⟨?_, by rfl, by rfl⟩
  intro s mids et now hmeters hne
  have hmiss' : (mids.any fun mid => (findMeter s.meters mid).isNone) = false := by
    by_cases h : (mids.any fun mid => (findMeter s.meters mid).isNone) = true
    · rw [List.any_eq_true] at h
      obtain ⟨mid, hmem, hnone⟩ := h
      have hsome := hmeters mid hmem
      cases hfm : findMeter s.meters mid with
      | none => rw [hfm] at hsome; exact Bool.noConfusion hsome
      | some m => rw [hfm] at hnone; exact Bool.noConfusion hnone
    · simpa using h
  have hemp' : (eligibleAgents s.agents).isEmpty = false := by
    cases hel : eligibleAgents s.agents with
    | nil => exact absurd hel hne
    | cons a t => rfl
  have hok : bulk_assign s mids none et now =
      .ok (bulkStep (roundRobinAgentId (eligibleAgents s.agents)) et now mids s 0) := by
    simp [bulk_assign, hmiss', hemp']
  obtain ⟨created, h1, h2, h3, h4, h5⟩ :=
    bulkStep_spec (roundRobinAgentId (eligibleAgents s.agents)) et now mids s 0
  refine ⟨_, _, created, by rw [hok], h1, by simpa using h2, ?_, ?_, h5⟩
  · intro k hk
    obtain ⟨hs, ha, hn, hm⟩ := h3 k hk
    refine ⟨hs, ?_⟩
    rw [ha]
    congr 1
    omega
  · intro mid hmid a hmem heq
    have hfalse := h4 a hmem
    rw [heq, hmid] at hfalse
    exact Bool.noConfusion hfalse

/-- Witness for C6: the general round-robin characterization applied to the
concrete three-meter, two-agent batch. -/
theorem bulk_auto_round_robin_witness :
    ∃ s' c created, bulk_assign exC6_s [10, 11, 12] none none 7 = .ok (s', c) ∧
      s'.assignments = exC6_s.assignments ++ created ∧
      c = created.length ∧
      (∀ k : Nat, ∀ hk : k < created.length,
        (created.get ⟨k, hk⟩).status = AssignmentStatus.pending ∧
        (created.get ⟨k, hk⟩).agent_id =
          roundRobinAgentId (eligibleAgents exC6_s.agents) k) ∧
      (∀ mid, hasActiveAssignment exC6_s.assignments mid = true →
        ∀ a ∈ created, a.meter_id ≠ mid) ∧
      (([10, 11, 12] : List Nat).Nodup →
        ∀ mid ∈ ([10, 11, 12] : List Nat),
          hasActiveAssignment exC6_s.assignments mid = false →
          ∃ a ∈ created, a.meter_id = mid) :=
  bulk_auto_round_robin.1 exC6_s [10, 11, 12] none 7 (by decide) (by decide)
